import Mathlib

/-!
Verification of the routing/merging decision engine of a protocol
multiplexer (source files `frassum.py` and `util.py`): a shallow
embedding of the Python source into Lean, followed by theorems about
the embedded functions.

JSON values are modelled by an inductive type; Python dicts become
association lists that keep insertion order (Python 3.7+ dicts preserve
insertion order, and assignment to an existing key updates in place).
Python `None` and JSON `null` are both `JSON.null`, matching the fact
that a decoded JSON payload represents null as `None` and `dict.get`
returns `None` both for an absent key and for a stored null value.
Python string prefix/suffix tests are modelled over code-point lists,
which is exactly Python's string semantics (a `str` is a sequence of
code points).
-/

/-- A JSON value: the datatype of every payload the engine touches. -/
inductive JSON where
  | null : JSON
  | bool : Bool → JSON
  | num : Int → JSON
  | str : String → JSON
  | arr : List JSON → JSON
  | obj : List (String × JSON) → JSON
deriving Repr

mutual

/-- Structural equality of JSON values, modelling Python `==` on decoded
payload values (for association lists this is order-sensitive; Python
dict equality ignores order, but every key-comparison the source makes
is on strings, where the two coincide). -/
def JSON.beq : JSON → JSON → Bool
  | .null, .null => true
  | .bool a, .bool b => a == b
  | .num a, .num b => a == b
  | .str a, .str b => a == b
  | .arr as, .arr bs => JSON.beqL as bs
  | .obj as, .obj bs => JSON.beqKV as bs
  | _, _ => false

/-- Pointwise equality of JSON lists. -/
def JSON.beqL : List JSON → List JSON → Bool
  | [], [] => true
  | a :: as, b :: bs => JSON.beq a b && JSON.beqL as bs
  | _, _ => false

/-- Pointwise equality of JSON object entry lists. -/
def JSON.beqKV : List (String × JSON) → List (String × JSON) → Bool
  | [], [] => true
  | (k, v) :: as, (k2, v2) :: bs => k == k2 && JSON.beq v v2 && JSON.beqKV as bs
  | _, _ => false

end

/-- Python truthiness of a JSON value: `None`, `False`, `0`, `""`,
`[]` and `{}` are falsy, everything else truthy. -/
def truthy : JSON → Bool
  | .null => false
  | .bool b => b
  | .num n => n != 0
  | .str s => s != ""
  | .arr xs => !xs.isEmpty
  | .obj kvs => !kvs.isEmpty

/-- `util.is_scalar`: `not isinstance(v, (dict, list, set, tuple))` —
for JSON values, everything except objects and arrays is scalar. -/
def is_scalar : JSON → Bool
  | .arr _ => false
  | .obj _ => false
  | _ => true

/-- Is the value a JSON object (a Python dict)? -/
def isDict : JSON → Bool
  | .obj _ => true
  | _ => false

/-- Is the value null (Python `None`)? -/
def isNull : JSON → Bool
  | .null => true
  | _ => false

/-- Python `x == n` between a payload value and an int literal: Python
numeric equality also identifies `True` with 1 and `False` with 0. -/
def pyEqInt (x : JSON) (n : Int) : Bool :=
  match x with
  | .num m => m == n
  | .bool b => (if b then (1 : Int) else 0) == n
  | _ => false

/-- Python `x < y` on payload values that are numbers (booleans coerce
to 0/1).  On other operand types Python raises `TypeError`; the model
returns `false` there (no call site of the source reaches that case
with well-typed payloads). -/
def pyLT (x y : JSON) : Bool :=
  match x, y with
  | .num a, .num b => a < b
  | .num a, .bool b => a < (if b then 1 else 0)
  | .bool a, .num b => (if a then (1 : Int) else 0) < b
  | .bool a, .bool b => (if a then (1 : Int) else 0) < (if b then 1 else 0)
  | _, _ => false

/-- Python `x or y`. -/
def pyOr (x y : JSON) : JSON :=
  if truthy x then x else y

/-- The entry list of an object; non-objects have no entries. -/
def jEntries : JSON → List (String × JSON)
  | .obj kvs => kvs
  | _ => []

/-- First-match lookup in an association list (a Python dict lookup
with string keys). -/
def aLookup {α : Type} : List (String × α) → String → Option α
  | [], _ => none
  | (k, v) :: rest, key => if k = key then some v else aLookup rest key

/-- Python dict assignment `d[k] = v` with string keys: update the
first entry with key `k` in place, or append a new entry (insertion
order preserved). -/
def aSet {α : Type} : List (String × α) → String → α → List (String × α)
  | [], key, v => [(key, v)]
  | (k, w) :: rest, key, v =>
    if k = key then (k, v) :: rest else (k, w) :: aSet rest key v

/-- Lookup in a dict whose keys are arbitrary payload values, compared
with Python `==` (`JSON.beq`). -/
def aLookupJ : List (JSON × JSON) → JSON → Option JSON
  | [], _ => none
  | (k, v) :: rest, key => if JSON.beq k key then some v else aLookupJ rest key

/-- Assignment in a dict whose keys are payload values. -/
def aSetJ : List (JSON × JSON) → JSON → JSON → List (JSON × JSON)
  | [], key, v => [(key, v)]
  | (k, w) :: rest, key, v =>
    if JSON.beq k key then (k, v) :: rest else (k, w) :: aSetJ rest key v

/-- Python `d.pop(k, None)` in a dict whose keys are payload values:
remove the entry with key `k`, if any; absence is not an error. -/
def aRemoveJ : List (JSON × JSON) → JSON → List (JSON × JSON)
  | [], _ => []
  | (k, w) :: rest, key =>
    if JSON.beq k key then rest else (k, w) :: aRemoveJ rest key

/-- Python `d.get(k)`: the stored value, or `None` when absent (a
stored JSON null also reads back as `None`). -/
def pyGet (j : JSON) (k : String) : JSON :=
  (aLookup (jEntries j) k).getD .null

/-- Python `d.get(k, d0)`: the stored value when the key is present
(even when the stored value is null), otherwise the default. -/
def pyGetD (j : JSON) (k : String) (d0 : JSON) : JSON :=
  match aLookup (jEntries j) k with
  | some v => v
  | none => d0

/-- Python `k in d` on a dict. -/
def hasKey (j : JSON) (k : String) : Bool :=
  (aLookup (jEntries j) k).isSome

/-- Python `d[k] = v` on a JSON object. -/
def dSet (j : JSON) (k : String) (v : JSON) : JSON :=
  .obj (aSet (jEntries j) k v)

/-- The element list of a JSON array (the source only iterates or
concatenates values that are lists at runtime). -/
def asArr : JSON → List JSON
  | .arr xs => xs
  | _ => []

/-- The text of a JSON string (the serverInfo fields the source reads
are typed strings). -/
def asStr : JSON → String
  | .str s => s
  | _ => ""

/-- Python `str.startswith(p)`: prefix test over code points. -/
def strStartsWith (s p : String) : Bool :=
  p.data.isPrefixOf s.data

/-- Python `str.endswith(p)`: suffix test over code points. -/
def strEndsWith (s p : String) : Bool :=
  p.data.isSuffixOf s.data

mutual

/-- `util.dmerge`: merge `d2` into `d1`.  Nested dicts merge
recursively, matching lists concatenate, a non-scalar beats a scalar,
and on a scalar/scalar conflict `d1` wins.  Non-dict arguments never
occur at the call site (the source would raise); the model returns the
first argument there. -/
def dmerge : JSON → JSON → JSON
  | .obj l1, .obj l2 => .obj (dmergeEntries l1 l2)
  | d1, _ => d1

/-- The loop of `dmerge` over `d2.items()`, threading the result. -/
def dmergeEntries : List (String × JSON) → List (String × JSON) →
    List (String × JSON)
  | res, [] => res
  | res, (k, v) :: rest => dmergeEntries (dmergeKey res k v) rest

/-- One iteration of the `dmerge` loop: combine one key/value of `d2`
into the running result (append when the key is new). -/
def dmergeKey : List (String × JSON) → String → JSON → List (String × JSON)
  | [], k, v => [(k, v)]
  | (k1, v1) :: rest, k, v =>
    if k1 = k then (k1, dmergeVal v1 v) :: rest
    else (k1, v1) :: dmergeKey rest k v

/-- The value-combination rules of `dmerge` when a key is present in
both dicts. -/
def dmergeVal : JSON → JSON → JSON
  | .obj a, .obj b => .obj (dmergeEntries a b)
  | .arr a, .arr b => .arr (a ++ b)
  | v1, v2 => if is_scalar v1 && !is_scalar v2 then v2 else v1

end

/-- A logical LSP server (the `Server` dataclass).  `sid` models Python
object identity: every live instance has its own `sid`.  The generated
dataclass `__eq__` compares the declared fields only, never identity. -/
structure Server where
  sid : Nat
  name : String
  caps : JSON
  cookie : JSON

/-- The dataclass-generated `Server.__eq__`: field-wise structural
comparison of `name`, `caps` and `cookie` (object identity `sid` does
not participate). -/
def serverEq (a b : Server) : Bool :=
  a.name == b.name && JSON.beq a.caps b.caps && JSON.beq a.cookie b.cookie

/-- The `DataCookie` dataclass: a stashed payload fragment and the
server that produced it. -/
structure DataCookie where
  data : JSON
  server : Server

/-- The mutable state of `LspLogic`. -/
structure LspLogic where
  primary_server : Server
  document_versions : List (JSON × JSON)
  data_cookies : List (String × DataCookie)
  data_cookie_counter : Nat

/-- The capability table of the single-target routing rule. -/
def capForMethod (method : String) : Option String :=
  if method = "textDocument/rename" then some "renameProvider"
  else if method = "textDocument/formatting" then some "documentFormattingProvider"
  else if method = "textDocument/rangeFormatting" then some "documentRangeFormattingProvider"
  else none

/-- `LspLogic.servers_to_route_to`.  The source may rewrite `params`
in place on cookie recovery, so the model returns the chosen servers
together with the (possibly updated) params. -/
def servers_to_route_to (st : LspLogic) (method : String) (params : JSON)
    (servers : List Server) : List Server × JSON :=
  let data : JSON :=
    if truthy params && strEndsWith method "resolve" then pyGet params "data"
    else .null
  let recovered : Option (List Server × JSON) :=
    match data with
    | .str s =>
      if strStartsWith s "rassumfrassum-" then
        match aLookup st.data_cookies s with
        | some cookie => some ([cookie.server], dSet params "data" cookie.data)
        | none => none
      else none
    | _ => none
  match recovered with
  | some r => r
  | none =>
    if method = "initialize" || method = "shutdown" then (servers, params)
    else if method = "textDocument/codeAction" then
      (servers.filter (fun s => truthy (pyGet s.caps "codeActionProvider")), params)
    else
      match capForMethod method with
      | some cap =>
        match servers.find? (fun s => truthy (pyGet s.caps cap)) with
        | some s => ([s], params)
        | none => ([], params)
      | none => (if servers.isEmpty then [] else [st.primary_server], params)

/-- `LspLogic.on_client_notification`: track document versions. -/
def on_client_notification (st : LspLogic) (method : String) (params : JSON) :
    LspLogic :=
  if method = "textDocument/didOpen" then
    let text_doc := pyGetD params "textDocument" (.obj [])
    let uri := pyGet text_doc "uri"
    let version := pyGet text_doc "version"
    if !isNull uri && !isNull version then
      { st with document_versions := aSetJ st.document_versions uri version }
    else st
  else if method = "textDocument/didChange" then
    let text_doc := pyGetD params "textDocument" (.obj [])
    let uri := pyGet text_doc "uri"
    let version := pyGet text_doc "version"
    if !isNull uri && !isNull version then
      { st with document_versions := aSetJ st.document_versions uri version }
    else st
  else if method = "textDocument/didClose" then
    let text_doc := pyGetD params "textDocument" (.obj [])
    let uri := pyGet text_doc "uri"
    if !isNull uri then
      { st with document_versions := aRemoveJ st.document_versions uri }
    else st
  else st

/-- The possible non-`None` results of `get_notif_aggregation_key`:
`drop` is the `("drop",)` tuple, and `notif method uri version` is the
`('notification', method, uri, version)` tuple — the fixed tags of the
source are the constructors. -/
inductive AggKey where
  | drop : AggKey
  | notif : String → JSON → JSON → AggKey
deriving Repr

/-- `LspLogic.get_notif_aggregation_key`: aggregation key for
notifications, `none` when the notification needs no aggregation. -/
def get_notif_aggregation_key (st : LspLogic) (method : String)
    (payload : JSON) : Option AggKey :=
  if method = "textDocument/publishDiagnostics" then
    let uri := pyGetD payload "uri" (.str "")
    let version := pyGet payload "version"
    match aLookupJ st.document_versions uri with
    | some tracked =>
      if isNull version then
        some (.notif method uri (pyOr tracked (.num 0)))
      else if pyLT version tracked then
        some .drop
      else
        some (.notif method uri (pyOr version (.num 0)))
    | none => some (.notif method uri (pyOr version (.num 0)))
  else none

/-- `LspLogic._stash_data_maybe`: stash an item's `data` field behind a
fresh cookie token, replacing it in the item.  Returns the updated
state and the updated item. -/
def stash_data_maybe (st : LspLogic) (payload : JSON) (server : Server) :
    LspLogic × JSON :=
  if !truthy payload || !hasKey payload "data" then (st, payload)
  else
    let n := st.data_cookie_counter + 1
    let cookie_id := "rassumfrassum-" ++ toString n
    let st' := { st with
      data_cookie_counter := n,
      data_cookies := aSet st.data_cookies cookie_id ⟨pyGet payload "data", server⟩ }
    (st', dSet payload "data" (.str cookie_id))

/-- The local predicate `t1sync` of `_merge_initialize_payloads`: does
a textDocumentSync value denote full-document sync?  (`x == 1`, or a
dict whose `change` field `== 1`; Python `==` identifies `True` with
1, which `pyEqInt` models.) -/
def t1sync (x : JSON) : Bool :=
  pyEqInt x 1 || (isDict x && pyEqInt (pyGet x "change") 1)

/-- One iteration of the capability-merge loop of
`_merge_initialize_payloads` over `payload['capabilities'].items()`. -/
def mergeCapEntry (res : List (String × JSON)) (cap : String) (newval : JSON) :
    List (String × JSON) :=
  let cur := (aLookup res cap).getD .null
  if isNull cur then aSet res cap newval
  else if cap = "textDocumentSync" && t1sync newval then aSet res cap newval
  else if is_scalar newval && isNull cur then aSet res cap newval
  else if is_scalar cur && !is_scalar newval then aSet res cap newval
  else if isDict cur && isDict newval &&
      !(["semanticTokensProvider"].contains cap) then
    aSet res cap (dmerge cur newval)
  else res

/-- The capability-merge loop of `_merge_initialize_payloads`. -/
def mergeCaps (res : List (String × JSON)) :
    List (String × JSON) → List (String × JSON)
  | [] => res
  | (cap, newval) :: rest => mergeCaps (mergeCapEntry res cap newval) rest

/-- The local `merge_field` of `_merge_initialize_payloads`: combine
one serverInfo text field of the aggregate and of the new reply. -/
def merge_field (aggregate s_info : JSON) (primary_payload : Bool)
    (fieldName sep : String) : String :=
  let merged_info := pyGetD aggregate "serverInfo" (.obj [])
  let cur := asStr (pyGetD merged_info fieldName (.str ""))
  let new := asStr (pyGetD s_info fieldName (.str ""))
  if !(cur != "" && new != "") then (if new != "" then new else cur)
  else if primary_payload then new ++ sep ++ cur
  else cur ++ sep ++ new

/-- `LspLogic._merge_initialize_payloads` (named without the method
string to keep to plain identifiers): merge one handshake reply into
the running aggregate. -/
def merge_init_payloads (st : LspLogic) (aggregate payload : JSON)
    (source : Server) : JSON :=
  let primary_payload := serverEq source st.primary_server
  let res := jEntries (pyGetD aggregate "capabilities" (.obj []))
  let new := jEntries (pyGetD payload "capabilities" (.obj []))
  let res' := mergeCaps res new
  let aggregate1 := dSet aggregate "capabilities" (.obj res')
  let s_info := pyGetD payload "serverInfo" (.obj [])
  if truthy s_info then
    dSet aggregate1 "serverInfo" (.obj
      [("name", .str (merge_field aggregate1 s_info primary_payload "name" "+")),
       ("version", .str (merge_field aggregate1 s_info primary_payload "version" ","))])
  else aggregate1

/-- `LspLogic.aggregate_payloads`: fold one server reply into the
running aggregate. -/
def aggregate_payloads (st : LspLogic) (method : String) (aggregate : JSON)
    (payload : JSON) (source : Server) (is_error : Bool) : JSON :=
  if is_error then aggregate
  else if method = "textDocument/publishDiagnostics" then
    let current_diags := asArr (pyGetD aggregate "diagnostics" (.arr []))
    let new_diags := (asArr (pyGetD payload "diagnostics" (.arr []))).map
      (fun diag =>
        if hasKey diag "source" then diag
        else dSet diag "source" (.str source.name))
    dSet aggregate "diagnostics" (.arr (current_diags ++ new_diags))
  else if method = "textDocument/codeAction" then
    .arr (asArr (pyOr aggregate (.arr [])) ++ asArr (pyOr payload (.arr [])))
  else if method = "initialize" then
    merge_init_payloads st aggregate payload source
  else if method = "shutdown" then aggregate
  else aggregate

/-- Process a sequence of client notifications in order (the engine is
driven one message at a time by its host). -/
def process_notifications (st : LspLogic) (msgs : List (String × JSON)) :
    LspLogic :=
  msgs.foldl (fun s mp => on_client_notification s mp.1 mp.2) st

/-- The serverInfo field combination exactly as the specification words
it (for comparison with the source's `merge_field`): if either side is
empty take whichever is non-empty, otherwise concatenate with the
separator, the new reply's value first exactly when the reply came from
the primary server. -/
def claimed_merge_field (cur new sep : String) (primary : Bool) : String :=
  if cur = "" then new
  else if new = "" then cur
  else if primary then new ++ sep ++ cur
  else cur ++ sep ++ new

theorem isPrefixOf_append_self (l r : List Char) :
    l.isPrefixOf (l ++ r) = true := by
  induction l with
  | nil => simp [List.isPrefixOf]
  | cons a as ih => simp [List.isPrefixOf, ih]

theorem strStartsWith_append (p r : String) :
    strStartsWith (p ++ r) p = true := by
  simp [strStartsWith, String.data_append, isPrefixOf_append_self]

theorem aLookup_aSet_self {α : Type} (l : List (String × α)) (k : String)
    (v : α) : aLookup (aSet l k v) k = some v := by
  induction l with
  | nil => simp [aSet, aLookup]
  | cons p rest ih =>
    by_cases h : p.1 = k
    · simp [aSet, aLookup, h]
    · simp [aSet, aLookup, h, ih]

theorem aLookup_aSet_ne {α : Type} (l : List (String × α)) (k k2 : String)
    (v : α) (hne : k ≠ k2) : aLookup (aSet l k v) k2 = aLookup l k2 := by
  induction l with
  | nil => simp [aSet, aLookup, hne]
  | cons p rest ih =>
    by_cases h : p.1 = k
    · simp [aSet, aLookup, h, hne]
    · by_cases h2 : p.1 = k2
      · have hkk : ¬(k2 = k) := fun hh => hne hh.symm
        simp [aSet, aLookup, h, h2, hkk]
      · simp [aSet, aLookup, h, h2, ih]

mutual

theorem JSON.beq_refl : (j : JSON) → JSON.beq j j = true
  | .null => rfl
  | .bool _ => by simp [JSON.beq]
  | .num _ => by simp [JSON.beq]
  | .str _ => by simp [JSON.beq]
  | .arr as => by simp [JSON.beq, JSON.beqL_refl as]
  | .obj as => by simp [JSON.beq, JSON.beqKV_refl as]

theorem JSON.beqL_refl : (l : List JSON) → JSON.beqL l l = true
  | [] => rfl
  | a :: as => by simp [JSON.beqL, JSON.beq_refl a, JSON.beqL_refl as]

theorem JSON.beqKV_refl : (l : List (String × JSON)) → JSON.beqKV l l = true
  | [] => rfl
  | (_, v) :: as => by simp [JSON.beqKV, JSON.beq_refl v, JSON.beqKV_refl as]

end

/-- C4: for every method, aggregate, payload and source server, calling
the payload-aggregation function with the error flag set returns the
aggregate unchanged — an error reply never contributes to and never
modifies the running aggregate. -/
theorem c4_error_reply_ignored (st : LspLogic) (method : String)
    (aggregate payload : JSON) (source : Server) :
    aggregate_payloads st method aggregate payload source true = aggregate := rfl

/-- C3: for every document URI present in the version table, the
aggregation-key function for the diagnostics-publish notification on a
payload whose version field is present and strictly less than the
tracked version returns the drop signal, never an aggregation key. -/
theorem c3_stale_version_drop (st : LspLogic) (payload : JSON) (v tv : Int)
    (hver : pyGet payload "version" = .num v)
    (htr : aLookupJ st.document_versions (pyGetD payload "uri" (.str ""))
      = some (.num tv))
    (hlt : v < tv) :
    get_notif_aggregation_key st "textDocument/publishDiagnostics" payload
      = some .drop := by
  simp [get_notif_aggregation_key, hver, htr, isNull, pyLT, hlt]

theorem c3_stale_version_drop_witness :
    get_notif_aggregation_key
      ⟨⟨0, "p", .obj [], .null⟩, [(.str "u", .num 5)], [], 0⟩
      "textDocument/publishDiagnostics"
      (.obj [("uri", .str "u"), ("version", .num 3)]) = some .drop :=
  c3_stale_version_drop _ _ 3 5 rfl rfl (by decide)

/-- C6: for every diagnostics-publish notification whose payload omits
the version field (reads back as `None`), the aggregation key is the
tuple of the fixed tag, the method name, the URI, and the currently
tracked version for that URI — or 0 when the URI is untracked. -/
theorem c6_omitted_version_key (st : LspLogic) (payload : JSON)
    (hver : pyGet payload "version" = .null) :
    (∀ tv : Int,
      aLookupJ st.document_versions (pyGetD payload "uri" (.str ""))
          = some (.num tv) →
      get_notif_aggregation_key st "textDocument/publishDiagnostics" payload
        = some (.notif "textDocument/publishDiagnostics"
            (pyGetD payload "uri" (.str "")) (.num tv)))
    ∧ (aLookupJ st.document_versions (pyGetD payload "uri" (.str "")) = none →
      get_notif_aggregation_key st "textDocument/publishDiagnostics" payload
        = some (.notif "textDocument/publishDiagnostics"
            (pyGetD payload "uri" (.str "")) (.num 0))) := by
  constructor
  · intro tv htr
    by_cases h0 : tv = 0
    · subst h0
      simp [get_notif_aggregation_key, hver, htr, isNull, pyOr, truthy]
    · simp [get_notif_aggregation_key, hver, htr, isNull, pyOr, truthy, h0]
  · intro htr
    simp [get_notif_aggregation_key, hver, htr, isNull, pyOr, truthy]

theorem c6_omitted_version_key_witness :
    get_notif_aggregation_key
      ⟨⟨0, "p", .obj [], .null⟩, [(.str "u", .num 5)], [], 0⟩
      "textDocument/publishDiagnostics" (.obj [("uri", .str "u")])
      = some (.notif "textDocument/publishDiagnostics" (.str "u") (.num 5)) :=
  (c6_omitted_version_key
    ⟨⟨0, "p", .obj [], .null⟩, [(.str "u", .num 5)], [], 0⟩
    (.obj [("uri", .str "u")]) rfl).1 5 rfl

theorem resolve_not_special (method : String)
    (h : strEndsWith method "resolve" = true) :
    method ≠ "initialize" ∧ method ≠ "shutdown" ∧
    method ≠ "textDocument/codeAction" ∧ capForMethod method = none := by
  refine ⟨?_, ?_, ?_, ?_⟩
  · rintro rfl; exact absurd h (by decide)
  · rintro rfl; exact absurd h (by decide)
  · rintro rfl; exact absurd h (by decide)
  · unfold capForMethod
    by_cases h1 : method = "textDocument/rename"
    · subst h1; exact absurd h (by decide)
    · by_cases h2 : method = "textDocument/formatting"
      · subst h2; exact absurd h (by decide)
      · by_cases h3 : method = "textDocument/rangeFormatting"
        · subst h3; exact absurd h (by decide)
        · simp [h1, h2, h3]

/-- C5: a routing call for a method ending in "resolve" whose
`params.data` is a string with the opaque-token prefix but whose token
is not in the cookie table behaves as if no cookie were present: it
falls back to default routing and returns the primary server only
(given a non-empty candidate list) with `params` left unmodified. -/
theorem c5_unknown_token_default_routing (st : LspLogic) (method : String)
    (params : JSON) (servers : List Server) (s : String)
    (hm : strEndsWith method "resolve" = true)
    (hp : truthy params = true)
    (hd : pyGet params "data" = .str s)
    (hs : strStartsWith s "rassumfrassum-" = true)
    (hn : aLookup st.data_cookies s = none)
    (hne : servers ≠ []) :
    servers_to_route_to st method params servers
      = ([st.primary_server], params) := by
  obtain ⟨h1, h2, h3, h4⟩ := resolve_not_special method hm
  have hie : servers.isEmpty = false := by
    cases servers with
    | nil => exact absurd rfl hne
    | cons a l => rfl
  simp [servers_to_route_to, hp, hm, hd, hs, hn, h1, h2, h3, h4, hie]

theorem c5_unknown_token_default_routing_witness :
    servers_to_route_to ⟨⟨0, "prim", .obj [], .null⟩, [], [], 0⟩
      "codeAction/resolve" (.obj [("data", .str "rassumfrassum-99")])
      [⟨1, "a", .obj [], .null⟩]
      = ([⟨0, "prim", .obj [], .null⟩],
         .obj [("data", .str "rassumfrassum-99")]) :=
  c5_unknown_token_default_routing _ _ _ _ "rassumfrassum-99" (by decide) rfl
    rfl (by decide) rfl (List.cons_ne_nil _ _)

/-- C2: stash-then-recover round trip.  Stashing an item's `data` field
`D` for source server `S` replaces the item's data with the generated
token string, and a subsequent routing call for a method ending in
"resolve" whose `params.data` equals that token replaces `params.data`
with exactly the original `D` and returns the singleton list `[S]` —
the originating server — regardless of the candidate server list. -/
theorem c2_stash_recover_roundtrip (st : LspLogic) (item : JSON) (S : Server)
    (D : JSON) (method : String) (params : JSON) (servers : List Server)
    (ht : truthy item = true)
    (hk : hasKey item "data" = true)
    (hD : pyGet item "data" = D)
    (hm : strEndsWith method "resolve" = true)
    (hp : truthy params = true)
    (hpd : pyGet params "data"
      = .str ("rassumfrassum-" ++ toString (st.data_cookie_counter + 1))) :
    (stash_data_maybe st item S).2
      = dSet item "data"
          (.str ("rassumfrassum-" ++ toString (st.data_cookie_counter + 1)))
    ∧ servers_to_route_to (stash_data_maybe st item S).1 method params servers
      = ([S], dSet params "data" D) := by
  constructor
  · simp [stash_data_maybe, ht, hk]
  · have h1 : (stash_data_maybe st item S).1
        = { st with
            data_cookie_counter := st.data_cookie_counter + 1,
            data_cookies := aSet st.data_cookies
              ("rassumfrassum-" ++ toString (st.data_cookie_counter + 1))
              ⟨D, S⟩ } := by
      simp [stash_data_maybe, ht, hk, hD]
    rw [h1]
    simp [servers_to_route_to, hp, hm, hpd, strStartsWith_append,
      aLookup_aSet_self]

theorem c2_stash_recover_roundtrip_witness :
    (stash_data_maybe ⟨⟨0, "prim", .obj [], .null⟩, [], [], 0⟩
        (.obj [("data", .num 42)]) ⟨1, "backend", .obj [], .null⟩).2
      = .obj [("data", .str "rassumfrassum-1")]
    ∧ servers_to_route_to
        (stash_data_maybe ⟨⟨0, "prim", .obj [], .null⟩, [], [], 0⟩
          (.obj [("data", .num 42)]) ⟨1, "backend", .obj [], .null⟩).1
        "codeAction/resolve" (.obj [("data", .str "rassumfrassum-1")])
        [⟨0, "prim", .obj [], .null⟩]
      = ([⟨1, "backend", .obj [], .null⟩], .obj [("data", .num 42)]) :=
  c2_stash_recover_roundtrip ⟨⟨0, "prim", .obj [], .null⟩, [], [], 0⟩
    (.obj [("data", .num 42)]) ⟨1, "backend", .obj [], .null⟩ (.num 42)
    "codeAction/resolve" (.obj [("data", .str "rassumfrassum-1")])
    [⟨0, "prim", .obj [], .null⟩] rfl rfl rfl (by decide) rfl rfl

theorem jEntries_dSet (j : JSON) (k : String) (v : JSON) :
    jEntries (dSet j k v) = aSet (jEntries j) k v := rfl

theorem pyGetD_dSet_self (j : JSON) (k : String) (v d : JSON) :
    pyGetD (dSet j k v) k d = v := by
  simp [pyGetD, jEntries_dSet, aLookup_aSet_self]

theorem pyGetD_dSet_ne (j : JSON) (k k2 : String) (v d : JSON)
    (hne : k ≠ k2) : pyGetD (dSet j k v) k2 d = pyGetD j k2 d := by
  simp [pyGetD, jEntries_dSet, aLookup_aSet_ne _ _ _ _ hne]

theorem merge_field_eq_claimed (aggregate s_info : JSON) (primary : Bool)
    (f sep : String) :
    merge_field aggregate s_info primary f sep
      = claimed_merge_field
          (asStr (pyGetD (pyGetD aggregate "serverInfo" (.obj [])) f (.str "")))
          (asStr (pyGetD s_info f (.str ""))) sep primary := by
  unfold merge_field claimed_merge_field
  by_cases hc : asStr (pyGetD (pyGetD aggregate "serverInfo" (.obj [])) f (.str "")) = ""
    <;> by_cases hn2 : asStr (pyGetD s_info f (.str "")) = ""
    <;> simp [hc, hn2]

/-- C7: in the serverInfo merge, for the name and version fields
independently, if either side is empty the merged field is whichever is
non-empty, and otherwise the two are concatenated with the
field-specific separator, the new reply's value placed before the
aggregate's existing value exactly when the new reply came from the
primary server (by the engine's own equality check), and after it
otherwise. -/
theorem c7_serverinfo_order (st : LspLogic) (agg payload : JSON) (src : Server)
    (h : truthy (pyGetD payload "serverInfo" (.obj [])) = true) :
    pyGetD (merge_init_payloads st agg payload src) "serverInfo" (.obj [])
      = .obj
        [("name", .str (claimed_merge_field
            (asStr (pyGetD (pyGetD agg "serverInfo" (.obj [])) "name" (.str "")))
            (asStr (pyGetD (pyGetD payload "serverInfo" (.obj [])) "name" (.str "")))
            "+" (serverEq src st.primary_server))),
         ("version", .str (claimed_merge_field
            (asStr (pyGetD (pyGetD agg "serverInfo" (.obj [])) "version" (.str "")))
            (asStr (pyGetD (pyGetD payload "serverInfo" (.obj [])) "version" (.str "")))
            "," (serverEq src st.primary_server)))] := by
  have hne : "capabilities" ≠ "serverInfo" := by decide
  unfold merge_init_payloads
  simp [h, pyGetD_dSet_self, merge_field_eq_claimed, pyGetD_dSet_ne _ _ _ _ _ hne]

theorem c7_serverinfo_order_witness :
    pyGetD (merge_init_payloads ⟨⟨0, "prim", .obj [], .null⟩, [], [], 0⟩
        (.obj [("serverInfo", .obj [("name", .str "A"), ("version", .str "1")])])
        (.obj [("serverInfo", .obj [("name", .str "B"), ("version", .str "2")])])
        ⟨0, "prim", .obj [], .null⟩) "serverInfo" (.obj [])
      = .obj [("name", .str "B+A"), ("version", .str "2,1")] :=
  c7_serverinfo_order ⟨⟨0, "prim", .obj [], .null⟩, [], [], 0⟩
    (.obj [("serverInfo", .obj [("name", .str "A"), ("version", .str "1")])])
    (.obj [("serverInfo", .obj [("name", .str "B"), ("version", .str "2")])])
    ⟨0, "prim", .obj [], .null⟩ rfl

/-- C8 counterexample: two distinct Server instances (distinct object
identity `sid`) with identical name, capabilities and cookie fields ARE
treated as equal by the engine's equality — `serverEq` (the dataclass
`__eq__`) returns true, and the handshake merge treats a reply from the
distinct twin instance as coming from the primary server (primary-first
serverInfo ordering "B+A"), refuting the claim that equality is
identity-based. -/
theorem c8_counterexample :
    Server.mk 0 "srv" (.obj []) .null ≠ Server.mk 1 "srv" (.obj []) .null
    ∧ serverEq (Server.mk 0 "srv" (.obj []) .null)
        (Server.mk 1 "srv" (.obj []) .null) = true
    ∧ merge_init_payloads
        ⟨Server.mk 0 "srv" (.obj []) .null, [], [], 0⟩
        (.obj [("serverInfo", .obj [("name", .str "A"), ("version", .str "1")])])
        (.obj [("serverInfo", .obj [("name", .str "B"), ("version", .str "2")])])
        (Server.mk 1 "srv" (.obj []) .null)
      = .obj [("serverInfo",
              .obj [("name", .str "B+A"), ("version", .str "2,1")]),
              ("capabilities", .obj [])] := by
  refine ⟨?_, rfl, rfl⟩
  intro h
  exact absurd (congrArg Server.sid h) (by decide)

/-- C8 (amended): server equality as used by the engine is the
dataclass-generated structural equality over the name, capabilities and
cookie fields — two Server instances with identical fields compare
equal no matter their object identity. -/
theorem c8_structural_equality (i j : Nat) (n : String) (c k : JSON) :
    serverEq ⟨i, n, c, k⟩ ⟨j, n, c, k⟩ = true := by
  simp [serverEq, JSON.beq_refl]

/-- C9 counterexample: a document-open notification whose version field
is the integer -1 stores -1 in the document version table — the code
performs no sign check, so table values are not always non-negative. -/
theorem c9_counterexample :
    (on_client_notification ⟨⟨0, "p", .obj [], .null⟩, [], [], 0⟩
        "textDocument/didOpen"
        (.obj [("textDocument",
          .obj [("uri", .str "u"), ("version", .num (-1))])])).document_versions
      = [(.str "u", .num (-1))]
    ∧ (-1 : Int) < 0 := ⟨rfl, by decide⟩

theorem mem_aSetJ (l : List (JSON × JSON)) (k v : JSON) (p : JSON × JSON)
    (hp : p ∈ aSetJ l k v) : p.2 = v ∨ p ∈ l := by
  induction l with
  | nil =>
    simp [aSetJ] at hp
    subst hp
    exact Or.inl rfl
  | cons q rest ih =>
    by_cases h : JSON.beq q.1 k = true
    · simp [aSetJ, h] at hp
      rcases hp with hp | hp
      · subst hp; exact Or.inl rfl
      · exact Or.inr (List.mem_cons_of_mem _ hp)
    · simp [aSetJ, h] at hp
      rcases hp with hp | hp
      · subst hp; exact Or.inr (List.mem_cons_self _ _)
      · rcases ih hp with h2 | h2
        · exact Or.inl h2
        · exact Or.inr (List.mem_cons_of_mem _ h2)

theorem mem_aRemoveJ (l : List (JSON × JSON)) (k : JSON) (p : JSON × JSON)
    (hp : p ∈ aRemoveJ l k) : p ∈ l := by
  induction l with
  | nil => simp [aRemoveJ] at hp
  | cons q rest ih =>
    by_cases h : JSON.beq q.1 k = true
    · simp [aRemoveJ, h] at hp
      exact List.mem_cons_of_mem _ hp
    · simp [aRemoveJ, h] at hp
      rcases hp with hp | hp
      · subst hp; exact List.mem_cons_self _ _
      · exact List.mem_cons_of_mem _ (ih hp)

theorem on_client_notification_versions (st : LspLogic) (m : String)
    (pm : JSON) (Q : JSON → Prop)
    (h0 : ∀ p ∈ st.document_versions, Q p.2)
    (hmsg : Q (pyGet (pyGetD pm "textDocument" (.obj [])) "version")) :
    ∀ p ∈ (on_client_notification st m pm).document_versions, Q p.2 := by
  intro p hp
  unfold on_client_notification at hp
  split at hp
  · dsimp only at hp
    split at hp
    · rcases mem_aSetJ _ _ _ _ hp with h | h
      · rw [h]; exact hmsg
      · exact h0 p h
    · exact h0 p hp
  · split at hp
    · dsimp only at hp
      split at hp
      · rcases mem_aSetJ _ _ _ _ hp with h | h
        · rw [h]; exact hmsg
        · exact h0 p h
      · exact h0 p hp
    · split at hp
      · dsimp only at hp
        split at hp
        · exact h0 p (mem_aRemoveJ _ _ _ hp)
        · exact h0 p hp
      · exact h0 p hp

/-- C9 (amended): every value stored in the document version table by a
sequence of client notifications comes directly from a client message
(or was already in the table): any predicate holding for the version
fields of all processed messages and for all initial table values holds
for all final table values.  In particular the values are non-negative
integers whenever the client-supplied versions are; the code itself
never generates a version and never checks the sign. -/
theorem c9_versions_from_client (Q : JSON → Prop)
    (msgs : List (String × JSON)) (st : LspLogic)
    (h0 : ∀ p ∈ st.document_versions, Q p.2)
    (hmsgs : ∀ mp ∈ msgs,
      Q (pyGet (pyGetD mp.2 "textDocument" (.obj [])) "version")) :
    ∀ p ∈ (process_notifications st msgs).document_versions, Q p.2 := by
  induction msgs generalizing st with
  | nil => exact h0
  | cons mp rest ih =>
    intro p hp
    refine ih (on_client_notification st mp.1 mp.2) ?_ ?_ p hp
    · exact on_client_notification_versions st mp.1 mp.2 Q h0
        (hmsgs mp (List.mem_cons_self _ _))
    · intro mp2 h
      exact hmsgs mp2 (List.mem_cons_of_mem _ h)

theorem c9_versions_from_client_witness :
    (process_notifications ⟨⟨0, "p", .obj [], .null⟩, [], [], 0⟩
      [("textDocument/didOpen",
        .obj [("textDocument",
          .obj [("uri", .str "u"), ("version", .num 3)])])]).document_versions
      = [(.str "u", .num 3)]
    ∧ (∃ n : Int, ((JSON.str "u", JSON.num 3) : JSON × JSON).2 = .num n
        ∧ 0 ≤ n) :=
  ⟨rfl,
   c9_versions_from_client (fun v => ∃ n : Int, v = .num n ∧ 0 ≤ n)
    [("textDocument/didOpen",
      .obj [("textDocument",
        .obj [("uri", .str "u"), ("version", .num 3)])])]
    ⟨⟨0, "p", .obj [], .null⟩, [], [], 0⟩
    (by intro p hp; cases hp)
    (by
      intro mp h
      rcases List.mem_singleton.mp h with rfl
      exact ⟨3, rfl, by decide⟩)
    (.str "u", .num 3) (List.mem_singleton.mpr rfl)⟩

/-- C10: the routing function can return servers that are not members
of the candidate list.  The default rule returns the engine's stored
primary server (not the first element of the list) for every state,
params and non-empty candidate list (shown for a method reaching the
default rule), and cookie recovery returns the stashing record's source
server; the concrete instances show both with a returned server whose
name occurs nowhere in the candidate list. -/
theorem c10_route_outside_candidates :
    (∀ (st : LspLogic) (params : JSON) (servers : List Server),
      servers ≠ [] →
      servers_to_route_to st "textDocument/hover" params servers
        = ([st.primary_server], params))
    ∧ servers_to_route_to
        ⟨⟨0, "prim", .obj [], .null⟩, [],
         [("rassumfrassum-7", ⟨.num 5, ⟨2, "origin", .obj [], .null⟩⟩)], 7⟩
        "textDocument/hover" (.obj [("x", .num 1)])
        [⟨1, "other", .obj [], .null⟩]
      = ([⟨0, "prim", .obj [], .null⟩], .obj [("x", .num 1)])
    ∧ servers_to_route_to
        ⟨⟨0, "prim", .obj [], .null⟩, [],
         [("rassumfrassum-7", ⟨.num 5, ⟨2, "origin", .obj [], .null⟩⟩)], 7⟩
        "codeAction/resolve" (.obj [("data", .str "rassumfrassum-7")])
        [⟨1, "other", .obj [], .null⟩]
      = ([⟨2, "origin", .obj [], .null⟩], .obj [("data", .num 5)])
    ∧ ([⟨1, "other", .obj [], .null⟩] : List Server).all
        (fun s => s.name != "prim" && s.name != "origin") = true := by
  refine ⟨?_, rfl, rfl, rfl⟩
  intro st params servers hne
  have hie : servers.isEmpty = false := by
    cases servers with
    | nil => exact absurd rfl hne
    | cons a l => rfl
  simp [servers_to_route_to, capForMethod, hie,
    show strEndsWith "textDocument/hover" "resolve" = false from by decide]

theorem c10_route_outside_candidates_witness :
    servers_to_route_to ⟨⟨4, "p0", .obj [], .null⟩, [], [], 0⟩
      "textDocument/hover" (.obj []) [⟨5, "s5", .obj [], .null⟩]
      = ([⟨4, "p0", .obj [], .null⟩], .obj []) :=
  c10_route_outside_candidates.1 ⟨⟨4, "p0", .obj [], .null⟩, [], [], 0⟩
    (.obj []) [⟨5, "s5", .obj [], .null⟩] (List.cons_ne_nil _ _)

theorem mergeCapEntry_key_other (res : List (String × JSON))
    (cap key : String) (v : JSON) (hne : cap ≠ key) :
    aLookup (mergeCapEntry res cap v) key = aLookup res key := by
  unfold mergeCapEntry
  dsimp only
  repeat' split
  all_goals first
    | rfl
    | exact aLookup_aSet_ne _ _ _ _ hne

theorem mergeCaps_key_absent (l res : List (String × JSON)) (key : String)
    (hl : ∀ p ∈ l, p.1 ≠ key) :
    aLookup (mergeCaps res l) key = aLookup res key := by
  induction l generalizing res with
  | nil => rfl
  | cons q rest ih =>
    obtain ⟨cap, v⟩ := q
    show aLookup (mergeCaps (mergeCapEntry res cap v) rest) key = _
    rw [ih _ (fun p hp => hl p (List.mem_cons_of_mem _ hp))]
    exact mergeCapEntry_key_other _ _ _ _ (hl (cap, v) (List.mem_cons_self _ _))

theorem mergeCapEntry_sync_full (res : List (String × JSON)) (v : JSON)
    (hv : t1sync v = true) :
    aLookup (mergeCapEntry res "textDocumentSync" v) "textDocumentSync"
      = some v := by
  unfold mergeCapEntry
  by_cases h : isNull ((aLookup res "textDocumentSync").getD .null) = true
  · simp [h, aLookup_aSet_self]
  · simp [h, hv, aLookup_aSet_self]

theorem mergeCaps_sync_stays (l : List (String × JSON))
    (res : List (String × JSON)) (v : JSON) (hv : t1sync v = true)
    (hall : ∀ p ∈ l, p.1 = "textDocumentSync" → p.2 = v)
    (hres : aLookup res "textDocumentSync" = some v) :
    aLookup (mergeCaps res l) "textDocumentSync" = some v := by
  induction l generalizing res with
  | nil => exact hres
  | cons q rest ih =>
    obtain ⟨cap, w⟩ := q
    show aLookup (mergeCaps (mergeCapEntry res cap w) rest) "textDocumentSync" = _
    by_cases hc : cap = "textDocumentSync"
    · subst hc
      have hw : w = v := hall _ (List.mem_cons_self _ _) rfl
      subst hw
      exact ih _ (fun p hp h => hall p (List.mem_cons_of_mem _ hp) h)
        (mergeCapEntry_sync_full res w hv)
    · refine ih _ (fun p hp h => hall p (List.mem_cons_of_mem _ hp) h) ?_
      rw [mergeCapEntry_key_other _ _ _ _ hc]
      exact hres

theorem mergeCaps_sync_override (l : List (String × JSON))
    (res : List (String × JSON)) (v : JSON) (hv : t1sync v = true)
    (hall : ∀ p ∈ l, p.1 = "textDocumentSync" → p.2 = v)
    (hmem : ∃ p ∈ l, p.1 = "textDocumentSync") :
    aLookup (mergeCaps res l) "textDocumentSync" = some v := by
  induction l generalizing res with
  | nil => obtain ⟨p, hp, _⟩ := hmem; cases hp
  | cons q rest ih =>
    obtain ⟨cap, w⟩ := q
    show aLookup (mergeCaps (mergeCapEntry res cap w) rest) "textDocumentSync" = _
    by_cases hc : cap = "textDocumentSync"
    · subst hc
      have hw : w = v := hall _ (List.mem_cons_self _ _) rfl
      subst hw
      exact mergeCaps_sync_stays rest _ w hv
        (fun p hp h => hall p (List.mem_cons_of_mem _ hp) h)
        (mergeCapEntry_sync_full res w hv)
    · refine ih _ (fun p hp h => hall p (List.mem_cons_of_mem _ hp) h) ?_
      obtain ⟨p, hp, hps⟩ := hmem
      rcases List.mem_cons.mp hp with rfl | hp2
      · exact absurd hps hc
      · exact ⟨p, hp2, hps⟩
theorem dmergeKey_key_other (r : List (String × JSON)) (k key : String)
    (v : JSON) (hne : k ≠ key) :
    aLookup (dmergeKey r k v) key = aLookup r key := by
  have hne2 : ¬(key = k) := fun hh => hne hh.symm
  induction r with
  | nil => simp [dmergeKey, aLookup, hne]
  | cons q rest ih =>
    obtain ⟨k1, v1⟩ := q
    by_cases h : k1 = k
    · subst h
      simp [dmergeKey, aLookup, hne]
    · by_cases h2 : k1 = key
      · simp [dmergeKey, aLookup, h, h2, hne2]
      · simp [dmergeKey, aLookup, h, h2, ih]

theorem dmergeKey_found (r : List (String × JSON)) (k : String) (v w : JSON)
    (hf : aLookup r k = some w) :
    aLookup (dmergeKey r k v) k = some (dmergeVal w v) := by
  induction r with
  | nil => cases hf
  | cons q rest ih =>
    obtain ⟨k1, v1⟩ := q
    by_cases h : k1 = k
    · subst h
      simp [aLookup] at hf
      subst hf
      simp [dmergeKey, aLookup]
    · simp [aLookup, h] at hf
      simp [dmergeKey, aLookup, h, ih hf]

theorem dmergeVal_scalar_keep (w v : JSON) (hw : is_scalar w = true)
    (hv : is_scalar v = true) : dmergeVal w v = w := by
  cases w <;> cases v <;> simp_all [dmergeVal, is_scalar]

theorem pyEqInt_one_scalar (w : JSON) (h : pyEqInt w 1 = true) :
    is_scalar w = true := by
  cases w <;> simp_all [pyEqInt, is_scalar]

theorem dmergeEntries_keep_scalar (e : List (String × JSON)) (w : JSON)
    (he : ∀ p ∈ e, p.1 = "change" → is_scalar p.2 = true)
    (hw : is_scalar w = true) :
    ∀ c : List (String × JSON), aLookup c "change" = some w →
      aLookup (dmergeEntries c e) "change" = some w := by
  induction e with
  | nil =>
    intro c hc
    simp only [dmergeEntries]
    exact hc
  | cons q rest ih =>
    intro c hc
    obtain ⟨k, v⟩ := q
    rw [show dmergeEntries c ((k, v) :: rest)
        = dmergeEntries (dmergeKey c k v) rest from by simp [dmergeEntries]]
    apply ih (fun p hp h => he p (List.mem_cons_of_mem _ hp) h)
    by_cases hk : k = "change"
    · subst hk
      rw [dmergeKey_found c "change" v w hc,
        dmergeVal_scalar_keep w v hw (he _ (List.mem_cons_self _ _) rfl)]
    · rw [dmergeKey_key_other _ _ _ _ hk]
      exact hc

theorem t1sync_dmerge (c v : JSON) (hc : isDict c = true)
    (hv : isDict v = true) (hch : pyEqInt (pyGet c "change") 1 = true)
    (hsafe : ∀ p ∈ jEntries v, p.1 = "change" → is_scalar p.2 = true) :
    t1sync (dmerge c v) = true := by
  cases c with
  | obj lc =>
    cases v with
    | obj lv =>
      have hlk : ∃ w, aLookup lc "change" = some w ∧ pyEqInt w 1 = true := by
        rcases h : aLookup lc "change" with _ | w
        · exact absurd (by simpa [pyGet, jEntries, h] using hch) (by decide)
        · exact ⟨w, rfl, by simpa [pyGet, jEntries, h] using hch⟩
      obtain ⟨w, hlk, hw1⟩ := hlk
      have hkeep : aLookup (dmergeEntries lc lv) "change" = some w :=
        dmergeEntries_keep_scalar lv w (by simpa [jEntries] using hsafe)
          (pyEqInt_one_scalar w hw1) lc hlk
      simp [dmerge, t1sync, isDict, pyGet, jEntries, hkeep, hw1]
    | null => cases hv
    | bool b => cases hv
    | num n => cases hv
    | str s => cases hv
    | arr xs => cases hv
  | null => cases hc
  | bool b => cases hc
  | num n => cases hc
  | str s => cases hc
  | arr xs => cases hc

theorem mergeCapEntry_sync_partial (res : List (String × JSON)) (v c : JSON)
    (hcur : aLookup res "textDocumentSync" = some c)
    (ht : t1sync c = true)
    (hv : t1sync v = false)
    (hsafe : is_scalar v = true ∨ (isDict v = false ∧ is_scalar c = false)
      ∨ (isDict c = true ∧ isDict v = true
         ∧ ∀ p ∈ jEntries v, p.1 = "change" → is_scalar p.2 = true)) :
    ∃ c2, aLookup (mergeCapEntry res "textDocumentSync" v) "textDocumentSync"
        = some c2
      ∧ t1sync c2 = true
      ∧ (is_scalar v = true ∨ (isDict v = false ∧ is_scalar c2 = false)
        ∨ (isDict c2 = true ∧ isDict v = true
           ∧ ∀ p ∈ jEntries v, p.1 = "change" → is_scalar p.2 = true)) := by
  have hnn : isNull c = false := by
    cases c
    case null => exact absurd ht (by decide)
    all_goals rfl
  rcases hsafe with h1 | ⟨h2a, h2b⟩ | ⟨h3a, h3b, h3c⟩
  · have hdv : isDict v = false := by
      cases v <;> simp_all [isDict, is_scalar]
    refine ⟨c, ?_, ht, Or.inl h1⟩
    unfold mergeCapEntry
    simp [hcur, hnn, hv, h1, hdv]
  · refine ⟨c, ?_, ht, Or.inr (Or.inl ⟨h2a, h2b⟩)⟩
    unfold mergeCapEntry
    simp [hcur, hnn, hv, h2a, h2b]
  · have hsc : is_scalar c = false := by
      cases c <;> simp_all [is_scalar, isDict]
    have hsv : is_scalar v = false := by
      cases v <;> simp_all [is_scalar, isDict]
    have hch : pyEqInt (pyGet c "change") 1 = true := by
      cases c <;> simp_all [t1sync, pyEqInt, isDict]
    have hdm : isDict (dmerge c v) = true := by
      cases c <;> cases v <;> simp_all [dmerge, isDict]
    refine ⟨dmerge c v, ?_, t1sync_dmerge c v h3a h3b hch h3c,
      Or.inr (Or.inr ⟨hdm, h3b, h3c⟩)⟩
    unfold mergeCapEntry
    simp [hcur, hnn, hv, hsc, hsv, h3a, h3b, aLookup_aSet_self,
      show (["semanticTokensProvider"].contains "textDocumentSync") = false
        from by decide]

theorem mergeCaps_sync_partial (l : List (String × JSON)) (v : JSON)
    (hv : t1sync v = false)
    (hall : ∀ p ∈ l, p.1 = "textDocumentSync" → p.2 = v) :
    ∀ (res : List (String × JSON)) (c : JSON),
      aLookup res "textDocumentSync" = some c →
      t1sync c = true →
      (is_scalar v = true ∨ (isDict v = false ∧ is_scalar c = false)
        ∨ (isDict c = true ∧ isDict v = true
           ∧ ∀ p ∈ jEntries v, p.1 = "change" → is_scalar p.2 = true)) →
      ∃ c2, aLookup (mergeCaps res l) "textDocumentSync" = some c2
        ∧ t1sync c2 = true := by
  induction l with
  | nil =>
    intro res c hcur ht _
    exact ⟨c, hcur, ht⟩
  | cons q rest ih =>
    intro res c hcur ht hsafe
    obtain ⟨cap, w⟩ := q
    show ∃ c2,
      aLookup (mergeCaps (mergeCapEntry res cap w) rest) "textDocumentSync"
        = some c2 ∧ t1sync c2 = true
    by_cases hc : cap = "textDocumentSync"
    · subst hc
      have hw : w = v := hall _ (List.mem_cons_self _ _) rfl
      subst hw
      obtain ⟨c2, hl2, ht2, hsafe2⟩ :=
        mergeCapEntry_sync_partial res w c hcur ht hv hsafe
      exact ih (fun p hp h => hall p (List.mem_cons_of_mem _ hp) h)
        _ c2 hl2 ht2 hsafe2
    · refine ih (fun p hp h => hall p (List.mem_cons_of_mem _ hp) h)
        _ c ?_ ht hsafe
      rw [mergeCapEntry_key_other _ _ _ _ hc]
      exact hcur

theorem merge_init_caps (st : LspLogic) (agg payload : JSON) (src : Server) :
    pyGetD (merge_init_payloads st agg payload src) "capabilities" (.obj [])
      = .obj (mergeCaps (jEntries (pyGetD agg "capabilities" (.obj [])))
          (jEntries (pyGetD payload "capabilities" (.obj [])))) := by
  have hne : "serverInfo" ≠ "capabilities" := by decide
  unfold merge_init_payloads
  by_cases h : truthy (pyGetD payload "serverInfo" (.obj [])) = true
  · simp [h, pyGetD_dSet_self, pyGetD_dSet_ne _ _ _ _ _ hne]
  · simp [h, pyGetD_dSet_self]

/-- C1 counterexample: an aggregate whose textDocumentSync is the bare
full-sync scalar 1 does NOT keep its full-sync value when a later reply
carries the structured partial-sync value {change: 2}: the
scalar-vs-structured precedence rule replaces the scalar 1 with the
structured partial value — a silent downgrade, refuting the claim's
preservation direction as stated. -/
theorem c1_counterexample :
    t1sync (.num 1) = true
    ∧ t1sync (.obj [("change", .num 2)]) = false
    ∧ pyGetD (merge_init_payloads ⟨⟨0, "p", .obj [], .null⟩, [], [], 0⟩
        (.obj [("capabilities", .obj [("textDocumentSync", .num 1)])])
        (.obj [("capabilities",
          .obj [("textDocumentSync", .obj [("change", .num 2)])])])
        ⟨1, "o", .obj [], .null⟩) "capabilities" (.obj [])
      = .obj [("textDocumentSync", .obj [("change", .num 2)])] :=
  ⟨rfl, rfl, rfl⟩

/-- C1 (amended): merging a handshake reply whose textDocumentSync
denotes full-document sync (t1sync) always overrides the aggregate's
current value; conversely an aggregate whose textDocumentSync denotes
full sync keeps a full-sync value when a partial-sync reply is merged,
except where the scalar/structured precedence rules interfere: the
conclusion requires that the new value be scalar, or be neither scalar
nor a dict while the aggregate's value is structured, or that both be
dicts with the new dict carrying only scalar change entries.  (In the
excluded case — aggregate holding the bare scalar 1 and a structured
new value — the downgrade of `c1_counterexample` happens.) -/
theorem c1_sync_merge (st : LspLogic) (agg payload : JSON) (src : Server)
    (v : JSON)
    (hall : ∀ p ∈ jEntries (pyGetD payload "capabilities" (.obj [])),
      p.1 = "textDocumentSync" → p.2 = v) :
    (t1sync v = true →
      (∃ p ∈ jEntries (pyGetD payload "capabilities" (.obj [])),
        p.1 = "textDocumentSync") →
      aLookup (jEntries (pyGetD (merge_init_payloads st agg payload src)
          "capabilities" (.obj []))) "textDocumentSync" = some v)
    ∧ (∀ c : JSON,
      aLookup (jEntries (pyGetD agg "capabilities" (.obj [])))
          "textDocumentSync" = some c →
      t1sync c = true → t1sync v = false →
      (is_scalar v = true ∨ (isDict v = false ∧ is_scalar c = false)
        ∨ (isDict c = true ∧ isDict v = true
           ∧ ∀ q ∈ jEntries v, q.1 = "change" → is_scalar q.2 = true)) →
      ∃ c2, aLookup (jEntries (pyGetD (merge_init_payloads st agg payload src)
          "capabilities" (.obj []))) "textDocumentSync" = some c2
        ∧ t1sync c2 = true) := by
  constructor
  · intro hv hmem
    rw [merge_init_caps]
    exact mergeCaps_sync_override _ _ v hv hall hmem
  · intro c hcur ht hv hsafe
    rw [merge_init_caps]
    exact mergeCaps_sync_partial _ v hv hall _ c hcur ht hsafe

theorem c1_sync_merge_witness :
    aLookup (jEntries (pyGetD (merge_init_payloads
        ⟨⟨0, "p", .obj [], .null⟩, [], [], 0⟩
        (.obj [("capabilities", .obj [("textDocumentSync", .num 2)])])
        (.obj [("capabilities", .obj [("textDocumentSync", .num 1)])])
        ⟨1, "o", .obj [], .null⟩) "capabilities" (.obj [])))
      "textDocumentSync" = some (.num 1) :=
  (c1_sync_merge ⟨⟨0, "p", .obj [], .null⟩, [], [], 0⟩
    (.obj [("capabilities", .obj [("textDocumentSync", .num 2)])])
    (.obj [("capabilities", .obj [("textDocumentSync", .num 1)])])
    ⟨1, "o", .obj [], .null⟩ (.num 1)
    (by
      intro p hp h
      have h2 := List.mem_singleton.mp hp
      rw [h2])).1 rfl
    ⟨("textDocumentSync", .num 1), List.mem_singleton.mpr rfl, rfl⟩
